import Mathlib

/-!
Verification of the GSTIN bulk-validation tool (`src/GSTcheck.py`) against its
natural-language specification.

The development shallowly embeds the three core components of the script:

* the lookup client `get_gstin_details` (lines 27-56 of the source), which
  turns the outcome of one HTTP request into a flat record;
* the batch runner (lines 75-89): identifier extraction
  `df["GSTIN"].dropna().astype(str).str.strip().unique().tolist()`, the
  sequential loop appending one record per unique identifier, and the
  progress computation `int(idx / len(gstins) * 100)`;
* the report renderer's column-width rule (lines 108-110):
  `max_len = max(len(str(cell.value)) if cell.value else 0 for cell in col)`
  and `width = max_len + 2`.

Python values that originate from a parsed JSON body are modelled by the
inductive type `Json` below (JSON numbers are modelled as integers; the
claims under study never depend on fractional number payloads).  A Python
dict is a `List (String × Json)` whose lookup takes the first matching key.
Operations that can raise in Python (`dict.get` on a non-dict, `", ".join`
on a non-iterable or on a list with non-string items, JSON parsing) return
`Except String`, the carried string standing for `str(e)` of the raised
exception; the source wraps the whole request/parse/build block in one
`try/except Exception`, which the embedding mirrors.  The exact text of the
modelled exception messages is not meaningful, only which operations fail.

The progress computation runs in Python double precision.  It is embedded
exactly, over ℕ, as round-to-nearest, ties-to-even at 53 significant bits
with unbounded exponent range — which coincides with IEEE-754 binary64 for
every value this computation can produce in the normal range (quotients
`k / n` with `1 ≤ k ≤ n` and their products with 100 never overflow, and
never go subnormal for any remotely realistic `n`).
-/

namespace GSTcheck

/-- Python value obtained from parsing a JSON body.  Numbers are modelled as
integers. -/
inductive Json where
  | null
  | bool (b : Bool)
  | num (n : Int)
  | str (s : String)
  | arr (elems : List Json)
  | obj (fields : List (String × Json))

/-- First-match lookup in a modelled Python dict, `none` when the key is
absent. -/
def lookupJson : List (String × Json) → String → Option Json
  | [], _ => none
  | (k, v) :: rest, key => if k = key then some v else lookupJson rest key

/-- Python truthiness of a JSON-derived value: `None`, `False`, `0`, the
empty string, the empty list and the empty dict are falsy, everything else
is truthy. -/
def truthy : Json → Bool
  | .null => false
  | .bool b => b
  | .num n => n != 0
  | .str s => s != ""
  | .arr l => !l.isEmpty
  | .obj l => !l.isEmpty

/-- Python `x.get(key, default)`: defined for dicts, raises
`AttributeError` on any non-dict value. -/
def pyGetD (j : Json) (key : String) (default : Json) : Except String Json :=
  match j with
  | .obj kvs => .ok ((lookupJson kvs key).getD default)
  | _ => .error "AttributeError: object has no attribute get"

/-- Python `x.get(key)`: absent keys give `None`. -/
def pyGet (j : Json) (key : String) : Except String Json :=
  pyGetD j key .null

/-- Extracts a list of strings from the items of a Python list; `", ".join`
raises `TypeError` as soon as an item is not a string. -/
def asStrings : List Json → Except String (List String)
  | [] => .ok []
  | .str s :: rest => (asStrings rest).map (fun l => s :: l)
  | _ :: _ => .error "TypeError: sequence item: expected str instance"

/-- Python `", ".join(x)`: joins a list of strings; a string is joined
character by character, a dict joins its keys; any other value (or a list
with a non-string item) raises `TypeError`. -/
def pyJoinCommaSpace (x : Json) : Except String String :=
  match x with
  | .arr l => (asStrings l).map (String.intercalate ", ")
  | .str s => .ok (String.intercalate ", " (s.toList.map String.singleton))
  | .obj kvs => .ok (String.intercalate ", " (kvs.map Prod.fst))
  | _ => .error "TypeError: can only join an iterable"

mutual

/-- Python `repr(x)` for a JSON-derived value, as used by `str` on the
items of containers (string escaping is not modelled; no claim depends on
it). -/
def pyRepr : Json → String
  | .null => "None"
  | .bool true => "True"
  | .bool false => "False"
  | .num n => toString n
  | .str s => "\x27" ++ s ++ "\x27"
  | .arr l => "[" ++ String.intercalate ", " (pyReprList l) ++ "]"
  | .obj kvs => "\x7b" ++ String.intercalate ", " (pyReprKVs kvs) ++ "\x7d"

/-- Helper of `pyRepr`: `repr` of every item of a list. -/
def pyReprList : List Json → List String
  | [] => []
  | x :: xs => pyRepr x :: pyReprList xs

/-- Helper of `pyRepr`: rendering of the key-value pairs of a dict. -/
def pyReprKVs : List (String × Json) → List String
  | [] => []
  | (k, v) :: xs => ("\x27" ++ k ++ "\x27: " ++ pyRepr v) :: pyReprKVs xs

end

/-- Python `str(x)` for a JSON-derived value: identity on strings, `repr`
rendering inside containers. -/
def pyStr : Json → String
  | .null => "None"
  | .bool true => "True"
  | .bool false => "False"
  | .num n => toString n
  | .str s => s
  | .arr l => "[" ++ String.intercalate ", " (pyReprList l) ++ "]"
  | .obj kvs => "\x7b" ++ String.intercalate ", " (pyReprKVs kvs) ++ "\x7d"

/-- Outcome of `requests.get(url, timeout=10)` as observed by the caller:
either an exception (timeout, connection error, ...) carrying `str(e)`, or
a response with a status code and a body; `r.json()` on the body either
yields a parsed `Json` or raises a parse error, hence `Except`. -/
inductive HttpResult where
  | exn (msg : String)
  | resp (status_code : Nat) (body : Except String Json)

/-- URL built by the source:
`f"http://sheet.gstincheck.co.in/check/{api_key}/{gstin}"`. -/
def request_url (api_key gstin : String) : String :=
  "http://sheet.gstincheck.co.in/check/" ++ api_key ++ "/" ++ gstin

/-- Record built in the `resp.get("flag")` truthy branch of
`get_gstin_details` (source lines 35-50), with the fields evaluated in the
order of the Python dict literal.  Any of the `.get` chains can raise (for
example when `data` or `pradr` is not a dict, or `nba` is not joinable),
which propagates to the enclosing `try`. -/
def successRecord (gstin : String) (data : Json) : Except String (List (String × Json)) := do
  let sts ← pyGetD data "sts" (.str "")
  let lgnm ← pyGetD data "lgnm" (.str "")
  let tradeNam ← pyGetD data "tradeNam" (.str "")
  let ctb ← pyGetD data "ctb" (.str "")
  let ctj ← pyGetD data "ctj" (.str "")
  let stj ← pyGetD data "stj" (.str "")
  let pradr ← pyGetD data "pradr" (.obj [])
  let addr ← pyGetD pradr "addr" (.str "")
  let rgdt ← pyGetD data "rgdt" (.str "")
  let cxdt ← pyGetD data "cxdt" (.str "")
  let nbaVal ← pyGetD data "nba" (.arr [])
  let nba ← pyJoinCommaSpace nbaVal
  let stcd ← pyGetD data "stcd" (.str "")
  let lstupdt ← pyGetD data "lstupdt" (.str "")
  pure [("GSTIN", .str gstin), ("Status", sts), ("Legal_Name", lgnm),
        ("Trade_Name", tradeNam), ("Constitution", ctb),
        ("Center_Jurisdiction", ctj), ("State_Jurisdiction", stj),
        ("Principal_Place", addr), ("Registration_Date", rgdt),
        ("Cancellation_Date", cxdt), ("Nature_of_Business", .str nba),
        ("State_Code", stcd), ("Last_Updated", lstupdt)]

/-- Body of the `try` block of `get_gstin_details` (source lines 31-54)
after the request returned `r`: check the status code, parse the body,
check the success flag, and build the corresponding record.  A raised
exception is an `.error`. -/
def tryBody (gstin : String) (status_code : Nat) (body : Except String Json) :
    Except String (List (String × Json)) := do
  if status_code = 200 then
    let resp ← body
    let flag ← pyGet resp "flag"
    if truthy flag then
      let data ← pyGetD resp "data" (.obj [])
      successRecord gstin data
    else
      pure [("GSTIN", .str gstin), ("Status", .str "Invalid / Not Found")]
  else
    pure [("GSTIN", .str gstin),
          ("Status", .str ("API Error " ++ toString status_code))]

/-- Embedding of `get_gstin_details(api_key, gstin)` (source lines 27-56).
The network interaction is abstracted by its outcome `r : HttpResult`; the
`api_key` only flows into the URL and does not affect the record shape.
The `except Exception as e` handler (lines 55-56) turns any raised
exception into the two-field record with status `f"Error: {e}"`. -/
def get_gstin_details (api_key gstin : String) (r : HttpResult) :
    List (String × Json) :=
  match api_key, r with
  | _, .exn msg => [("GSTIN", .str gstin), ("Status", .str ("Error: " ++ msg))]
  | _, .resp code body =>
    match tryBody gstin code body with
    | .ok record => record
    | .error msg => [("GSTIN", .str gstin), ("Status", .str ("Error: " ++ msg))]

/-! Batch runner (source lines 75-89). -/

/-- Order-preserving deduplication keeping the first occurrence of every
element, as `pandas.Series.unique` does ("uniques are returned in order of
appearance"). -/
def uniqueFirst {α : Type} [DecidableEq α] (seen : List α) : List α → List α
  | [] => []
  | x :: xs =>
      if x ∈ seen then uniqueFirst seen xs
      else x :: uniqueFirst (x :: seen) xs

/-- Python `s.strip()`: removes leading and trailing whitespace characters
(modelled for the ASCII whitespace set of `Char.isWhitespace`; Python
additionally strips some rarer Unicode space characters, which no claim
exercises). -/
def pyStrip (s : String) : String :=
  String.mk
    (((s.data.dropWhile Char.isWhitespace).reverse.dropWhile
      Char.isWhitespace).reverse)

/-- Embedding of line 75,
`df["GSTIN"].dropna().astype(str).str.strip().unique().tolist()`.
The input column is a list of cells, `none` standing for a missing value
(`NaN`); a present cell is modelled by the string `astype(str)` yields for
it.  `dropna` removes only the missing cells, `str.strip()` trims
surrounding whitespace, `unique` deduplicates by exact string equality
keeping first-appearance order. -/
def gstins_of (cells : List (Option String)) : List String :=
  uniqueFirst [] ((cells.filterMap id).map pyStrip)

/-- Embedding of the validation loop (lines 85-88): one sequential call to
`get_gstin_details` per unique identifier, every returned record appended
to `results` — whatever the outcome of the lookup, modelled by the oracle
`http : String → HttpResult` giving the observed outcome of the request
for each identifier. -/
def runBatch (api_key : String) (http : String → HttpResult)
    (gstins : List String) : List (List (String × Json)) :=
  gstins.map (fun g => get_gstin_details api_key g (http g))

/-! Progress computation (source line 89): `int(idx / len(gstins) * 100)`.
`idx / len(gstins)` is Python float (binary64) true division and
`* 100` a binary64 multiplication, both rounded to nearest, ties to even;
`int` truncates toward zero.  The embedding computes the two rounded
significands exactly over ℕ. -/

/-- Binary logarithm on ℕ with explicit fuel, structurally recursive so
that concrete instances reduce in the kernel. -/
def lg2 : Nat → Nat → Nat
  | 0, _ => 0
  | fuel+1, n => if n < 2 then 0 else lg2 fuel (n / 2) + 1

/-- Floor of the binary logarithm: `nlog2 n = ⌊log₂ n⌋` for `n ≥ 1`. -/
def nlog2 (n : Nat) : Nat := lg2 n n

/-- Rounding of the quotient `a / b` (for `b > 0`) to the nearest integer,
ties to even — the rounding of one binary64 operation once the operands
are scaled to integers. -/
def rheNat (a b : Nat) : Nat :=
  let f := a / b
  let r := a % b
  if 2 * r < b then f
  else if b < 2 * r then f + 1
  else if f % 2 = 0 then f else f + 1

/-- Binade of the quotient `k / n` for `1 ≤ k ≤ n`: the unique `d` with
`2 ^ (-d) ≤ k / n < 2 ^ (-d+1)`, i.e. `n ≤ k * 2 ^ d < 2 * n`. -/
def dExp (k n : Nat) : Nat := if n ≤ k then 0 else nlog2 ((n - 1) / k) + 1

/-- Scaling exponent putting `k / n` at 53 significant bits: the binary64
value of `k / n` is `mDiv k n / 2 ^ s52 k n`. -/
def s52 (k n : Nat) : Nat := 52 + dExp k n

/-- Significand of the binary64 quotient `k / n`: lies in
`[2^52, 2^53]`. -/
def mDiv (k n : Nat) : Nat := rheNat (k * 2 ^ s52 k n) n

/-- Scaling exponent putting `fl(k/n) * 100` at 53 significant bits. -/
def tExp (k n : Nat) : Nat := nlog2 (100 * mDiv k n) - 52

/-- Significand of the binary64 product `fl(k/n) * 100`: the product's
value is `mMul k n * 2 ^ tExp k n / 2 ^ s52 k n`. -/
def mMul (k n : Nat) : Nat := rheNat (100 * mDiv k n) (2 ^ tExp k n)

/-- Embedding of line 89 for `1 ≤ k ≤ n`: the progress value
`int(k / n * 100)` emitted after the `k`-th of `n` unique identifiers,
with both float operations rounded to nearest, ties to even, and the final
truncation toward zero. -/
def pyProgress (k n : Nat) : Nat := mMul k n / 2 ^ (s52 k n - tExp k n)

/-- Progress values emitted over a whole run on `n` unique identifiers, in
emission order. -/
def progressSeq (n : Nat) : List Nat :=
  (List.range n).map (fun i => pyProgress (i + 1) n)

/-- Modelled from the spec claim wording: the exact value
`floor(k / n * 100)` computed over the rationals (equal to `100 * k / n`
in integer division). -/
def specProgress (k n : Nat) : Nat := 100 * k / n

/-- Modelled from the spec claim wording: the number of unique, non-empty,
trimmed identifiers in the input column. -/
def specUniqueNonEmpty (cells : List (Option String)) : Nat :=
  (uniqueFirst [] (((cells.filterMap id).map pyStrip).filter
    (fun s => s != ""))).length

/-! Report renderer, column widths (source lines 108-110). -/

/-- Keys of the rendered table: the union of the keys of all records in
first-appearance order, as `pandas.DataFrame` builds its columns from a
list of dicts. -/
def unionKeys (rs : List (List (String × Json))) : List String :=
  uniqueFirst [] (rs.flatMap (fun r => r.map Prod.fst))

/-- Cells of one column of the rendered table, below the header: the value
of each record at the column key; a record without the key leaves the cell
blank (`None` in openpyxl). -/
def colCells (rs : List (List (String × Json))) (c : String) :
    List (Option Json) :=
  rs.map (fun r => lookupJson r c)

/-- Embedding of `len(str(cell.value)) if cell.value else 0` (line 109):
the length the source counts for one cell, `0` for a blank cell and for
any falsy cell value. -/
def pyLenCell : Option Json → Nat
  | none => 0
  | some v => if truthy v then (pyStr v).length else 0

/-- Modelled from the spec claim wording: the length of the stringified
value of a cell, a blank cell rendering as the empty string. -/
def specLenCell : Option Json → Nat
  | none => 0
  | some v => (pyStr v).length

/-- Embedding of lines 108-110 for one column: the width assigned by the
source, the maximum of `pyLenCell` over the header cell and the data
cells, plus 2. -/
def codeWidth (rs : List (List (String × Json))) (c : String) : Nat :=
  ((some (Json.str c) :: colCells rs c).map pyLenCell).foldl max 0 + 2

/-- Modelled from the spec claim wording: the length of the longest
stringified cell value of the column, header cell included, plus the fixed
margin of 2. -/
def specWidth (rs : List (List (String × Json))) (c : String) : Nat :=
  ((some (Json.str c) :: colCells rs c).map specLenCell).foldl max 0 + 2

/-! Helper lemmas on the lookup client. -/

/-- Keys of a success record, in construction order. -/
def recordKeys : List String :=
  ["GSTIN", "Status", "Legal_Name", "Trade_Name", "Constitution",
   "Center_Jurisdiction", "State_Jurisdiction", "Principal_Place",
   "Registration_Date", "Cancellation_Date", "Nature_of_Business",
   "State_Code", "Last_Updated"]

/-- Keys of a failure record. -/
def errKeys : List String := ["GSTIN", "Status"]

theorem successRecord_shape {gstin : String} {data : Json}
    {rec : List (String × Json)} (h : successRecord gstin data = .ok rec) :
    rec.map Prod.fst = recordKeys ∧
      lookupJson rec "GSTIN" = some (.str gstin) := by
  cases data
  case obj kvs =>
    simp only [successRecord, pyGetD, bind, Except.bind, pure, Except.pure] at h
    repeat' split at h
    all_goals first
      | exact Except.noConfusion h
      | (injection h with h'; subst h';
         exact ⟨rfl, by simp [lookupJson]⟩)
  all_goals simp [successRecord, pyGetD, bind, Except.bind] at h

theorem tryBody_ok_shape {gstin : String} {code : Nat}
    {body : Except String Json} {rec : List (String × Json)}
    (h : tryBody gstin code body = .ok rec) :
    (rec.map Prod.fst = recordKeys ∨ rec.map Prod.fst = errKeys) ∧
      lookupJson rec "GSTIN" = some (.str gstin) := by
  simp only [tryBody, pyGet, pyGetD, bind, Except.bind, pure, Except.pure] at h
  repeat' split at h
  all_goals first
    | exact Except.noConfusion h
    | (injection h with h'; subst h';
       exact ⟨Or.inr rfl, by simp [lookupJson]⟩)
    | (rcases successRecord_shape h with ⟨hk, hg⟩; exact ⟨Or.inl hk, hg⟩)

/-- Every record the lookup client returns carries its identifier in the
`GSTIN` field, and its keys are either the full success set or the
two-field failure set. -/
theorem get_gstin_details_shape (api_key gstin : String) (r : HttpResult) :
    lookupJson (get_gstin_details api_key gstin r) "GSTIN" =
        some (.str gstin) ∧
      ((get_gstin_details api_key gstin r).map Prod.fst = recordKeys ∨
        (get_gstin_details api_key gstin r).map Prod.fst = errKeys) := by
  cases r with
  | exn msg => exact ⟨by simp [get_gstin_details, lookupJson], Or.inr rfl⟩
  | resp code body =>
    rcases htb : tryBody gstin code body with e | rec
    · exact ⟨by simp [get_gstin_details, htb, lookupJson], Or.inr (by
        simp [get_gstin_details, htb, errKeys])⟩
    · rcases tryBody_ok_shape htb with ⟨hk, hg⟩
      refine ⟨?_, ?_⟩ <;> simp only [get_gstin_details, htb]
      · exact hg
      · exact hk

/-- The `GSTIN` fields of a batch are exactly the looked-up identifiers, in
order. -/
theorem runBatch_gstin_fields (api_key : String) (http : String → HttpResult) :
    ∀ gs : List String,
      (runBatch api_key http gs).map (fun r => lookupJson r "GSTIN") =
        gs.map (fun g => some (Json.str g)) := by
  intro gs
  induction gs with
  | nil => rfl
  | cons g rest ih =>
    simp only [runBatch, List.map_cons] at ih ⊢
    exact congrArg₂ _ (get_gstin_details_shape api_key g (http g)).1 ih

/-! Claims C5, C6, C7, C8, C10: the lookup client's response handling. -/

/-- C5: on a 200 response with a truthy flag, the data fields are mapped to
the fixed output fields — the given mock yields Status "Active",
Legal_Name "ACME PVT LTD", Nature_of_Business "Retail, Wholesale" (the
`nba` list joined with ", "), Principal_Place "123 Main St" read from the
nested address object, and every other (missing) source key yields the
empty string; with all source keys missing, every descriptive field is the
empty string; an empty `nba` list also joins to the empty string. -/
theorem C5_success_mapping :
    (∀ api_key gstin : String,
      get_gstin_details api_key gstin (.resp 200 (.ok (Json.obj
        [("flag", .bool true),
         ("data", .obj [("sts", .str "Active"),
                        ("lgnm", .str "ACME PVT LTD"),
                        ("nba", .arr [.str "Retail", .str "Wholesale"]),
                        ("pradr", .obj [("addr", .str "123 Main St")])])]))) =
      [("GSTIN", .str gstin), ("Status", .str "Active"),
       ("Legal_Name", .str "ACME PVT LTD"), ("Trade_Name", .str ""),
       ("Constitution", .str ""), ("Center_Jurisdiction", .str ""),
       ("State_Jurisdiction", .str ""),
       ("Principal_Place", .str "123 Main St"),
       ("Registration_Date", .str ""), ("Cancellation_Date", .str ""),
       ("Nature_of_Business", .str "Retail, Wholesale"),
       ("State_Code", .str ""), ("Last_Updated", .str "")]) ∧
    (∀ api_key gstin : String,
      get_gstin_details api_key gstin
          (.resp 200 (.ok (Json.obj [("flag", .bool true)]))) =
      [("GSTIN", .str gstin), ("Status", .str ""),
       ("Legal_Name", .str ""), ("Trade_Name", .str ""),
       ("Constitution", .str ""), ("Center_Jurisdiction", .str ""),
       ("State_Jurisdiction", .str ""), ("Principal_Place", .str ""),
       ("Registration_Date", .str ""), ("Cancellation_Date", .str ""),
       ("Nature_of_Business", .str ""), ("State_Code", .str ""),
       ("Last_Updated", .str "")]) ∧
    (∀ api_key gstin : String,
      get_gstin_details api_key gstin (.resp 200 (.ok (Json.obj
          [("flag", .bool true), ("data", .obj [("nba", .arr [])])]))) =
      [("GSTIN", .str gstin), ("Status", .str ""),
       ("Legal_Name", .str ""), ("Trade_Name", .str ""),
       ("Constitution", .str ""), ("Center_Jurisdiction", .str ""),
       ("State_Jurisdiction", .str ""), ("Principal_Place", .str ""),
       ("Registration_Date", .str ""), ("Cancellation_Date", .str ""),
       ("Nature_of_Business", .str ""), ("State_Code", .str ""),
       ("Last_Updated", .str "")]) :=
  ⟨fun _ _ => rfl, fun _ _ => rfl, fun _ _ => rfl⟩

/-- C6: on a 200 response whose body parses to a JSON object whose success
flag is falsy or absent, the record is exactly the two-field
`GSTIN` / `Status = "Invalid / Not Found"` record, with no other keys. -/
theorem C6_invalid_not_found (api_key gstin : String)
    (kvs : List (String × Json))
    (h : truthy ((lookupJson kvs "flag").getD .null) = false) :
    get_gstin_details api_key gstin (.resp 200 (.ok (.obj kvs))) =
      [("GSTIN", .str gstin), ("Status", .str "Invalid / Not Found")] := by
  simp [get_gstin_details, tryBody, pyGet, pyGetD, h, bind, Except.bind,
    pure, Except.pure]

theorem C6_invalid_not_found_witness :
    truthy ((lookupJson [("flag", Json.bool false)] "flag").getD .null)
        = false ∧
      get_gstin_details "key" "27AAPFU0939F1ZV"
          (.resp 200 (.ok (.obj [("flag", Json.bool false)]))) =
        [("GSTIN", .str "27AAPFU0939F1ZV"),
         ("Status", .str "Invalid / Not Found")] :=
  ⟨rfl, C6_invalid_not_found "key" "27AAPFU0939F1ZV"
    [("flag", Json.bool false)] rfl⟩

/-- C7: on a non-success status code the record is exactly the two-field
`GSTIN` / `Status = "API Error <code>"` record, the numeric code
interpolated into the string. -/
theorem C7_api_error_code (api_key gstin : String) (code : Nat)
    (body : Except String Json) (h : code ≠ 200) :
    get_gstin_details api_key gstin (.resp code body) =
      [("GSTIN", .str gstin),
       ("Status", .str ("API Error " ++ toString code))] := by
  simp [get_gstin_details, tryBody, h, bind, Except.bind, pure, Except.pure]

theorem C7_api_error_code_witness :
    (500 : Nat) ≠ 200 ∧
      get_gstin_details "key" "27AAPFU0939F1ZV"
          (.resp 500 (.ok (.obj []))) =
        [("GSTIN", .str "27AAPFU0939F1ZV"), ("Status", .str "API Error 500")] :=
  ⟨by decide, C7_api_error_code "key" "27AAPFU0939F1ZV" 500
    (.ok (.obj [])) (by decide)⟩

/-- C8: any transport failure (the request raising with message `msg`)
yields the record containing only the identifier and the status
`"Error: " ++ msg`; the exception is swallowed, so the batch still
contains one record per identifier, each carrying its identifier, and a
failed lookup never aborts the batch. -/
theorem C8_transport_error_swallowed (api_key gstin msg : String)
    (http : String → HttpResult) (gs : List String) :
    get_gstin_details api_key gstin (.exn msg) =
        [("GSTIN", .str gstin), ("Status", .str ("Error: " ++ msg))] ∧
      (runBatch api_key http gs).length = gs.length ∧
      (runBatch api_key http gs).map (fun r => lookupJson r "GSTIN") =
        gs.map (fun g => some (Json.str g)) :=
  ⟨rfl, by simp [runBatch], runBatch_gstin_fields api_key http gs⟩

/-- C10: a 200 response whose body fails to parse as JSON does not raise
and yields neither a success nor an "API Error" record: the `r.json()`
call sits inside the same `try` as the request, so the result is the
two-field record with status `"Error: " ++ <parse error message>`. -/
theorem C10_parse_error_caught (api_key gstin emsg : String) :
    get_gstin_details api_key gstin (.resp 200 (.error emsg)) =
      [("GSTIN", .str gstin), ("Status", .str ("Error: " ++ emsg))] := rfl

/-! Helper lemmas on order-preserving deduplication. -/

theorem uniqueFirst_mem {α : Type} [DecidableEq α] {x : α} :
    ∀ (l seen : List α), x ∈ uniqueFirst seen l ↔ x ∈ l ∧ x ∉ seen := by
  intro l
  induction l with
  | nil => simp [uniqueFirst]
  | cons y ys ih =>
    intro seen
    by_cases hy : y ∈ seen <;>
      simp only [uniqueFirst, hy, if_pos, if_neg, not_false_iff,
        List.mem_cons, ih]
    · constructor
      · rintro ⟨hx, hs⟩
        exact ⟨Or.inr hx, hs⟩
      · rintro ⟨hxy | hx, hs⟩
        · exact absurd (hxy ▸ hy) hs
        · exact ⟨hx, hs⟩
    · constructor
      · rintro (rfl | ⟨hx, hs⟩)
        · exact ⟨Or.inl rfl, hy⟩
        · simp only [List.mem_cons, not_or] at hs
          exact ⟨Or.inr hx, hs.2⟩
      · rintro ⟨rfl | hx, hs⟩
        · exact Or.inl rfl
        · by_cases hxy : x = y
          · exact Or.inl hxy
          · exact Or.inr ⟨hx, by simp [List.mem_cons, hxy, hs]⟩

theorem uniqueFirst_nodup {α : Type} [DecidableEq α] :
    ∀ (l seen : List α), (uniqueFirst seen l).Nodup := by
  intro l
  induction l with
  | nil => intro seen; exact List.nodup_nil
  | cons y ys ih =>
    intro seen
    by_cases hy : y ∈ seen <;>
      simp only [uniqueFirst, hy, if_pos, if_neg, not_false_iff]
    · exact ih seen
    · refine List.nodup_cons.2 ⟨fun hmem => ?_, ih (y :: seen)⟩
      exact ((uniqueFirst_mem ys (y :: seen)).1 hmem).2
        (List.mem_cons_self y seen)

/-! Claims C1, C2, C4: the batch runner's identifier handling. -/

/-- C1 counterexample: the ResultSet length does not always equal the
number of unique, non-empty, trimmed identifiers — a whitespace-only cell
survives `dropna` and strips to the empty string, which is then looked up
and given a row, so the claimed invariant fails on `[some " "]`. -/
theorem C1_blank_identifier_counterexample :
    ¬ ((runBatch "key" (fun _ => .exn "timeout")
          (gstins_of [some " "])).length =
        specUniqueNonEmpty [some " "]) := by
  decide

/-- C1 amended: the ResultSet always has exactly one record per element of
the deduplicated identifier list (the unique *trimmed identifiers of the
present cells*, the empty string included when a present cell strips to
blank); each record carries its identifier in the `GSTIN` field, and no
identifier appears in two records. -/
theorem C1_resultset_one_row_per_unique_identifier (api_key : String)
    (http : String → HttpResult) (cells : List (Option String)) :
    (runBatch api_key http (gstins_of cells)).length =
        (gstins_of cells).length ∧
      (runBatch api_key http (gstins_of cells)).map
          (fun r => lookupJson r "GSTIN") =
        (gstins_of cells).map (fun g => some (Json.str g)) ∧
      ((runBatch api_key http (gstins_of cells)).map
          (fun r => lookupJson r "GSTIN")).Nodup := by
  refine ⟨by simp [runBatch], runBatch_gstin_fields api_key http _, ?_⟩
  rw [runBatch_gstin_fields]
  refine List.Nodup.map ?_ (uniqueFirst_nodup _ _)
  intro a b hab
  simpa using hab

/-- C2 counterexample: deduplication is not case-normalized — `"abc"` and
`"ABC"` do not collapse to a single entry. -/
theorem C2_case_sensitive_counterexample :
    ¬ ((gstins_of [some "abc", some "ABC"]).length = 1) := by
  decide

/-- C2 amended: deduplication is whitespace-normalized (each present cell
is trimmed) but case-sensitive: a string is in the unique list iff it is
the trimmed form of some present cell, each exactly once, with exact
(case-sensitive) string equality deciding uniqueness; identifiers
differing only in letter case stay distinct, e.g. the input
`["abc", "ABC"]` keeps both. -/
theorem C2_dedup_exact_string_match (cells : List (Option String))
    (s : String) :
    (s ∈ gstins_of cells ↔ s ∈ (cells.filterMap id).map pyStrip) ∧
      (gstins_of cells).Nodup ∧
      gstins_of [some "abc", some "ABC"] = ["abc", "ABC"] := by
  refine ⟨?_, uniqueFirst_nodup _ _, by decide⟩
  rw [gstins_of, uniqueFirst_mem]
  simp

/-- C4 counterexample: blank entries are not dropped — on the input whose
single entry is whitespace-only (hence with zero valid identifiers in the
claim's sense), the run still performs one lookup, of the empty string,
and produces a one-row ResultSet. -/
theorem C4_blank_not_dropped_counterexample :
    gstins_of [some " "] = [""] ∧
      (runBatch "key" (fun _ => .exn "timeout")
          (gstins_of [some " "])).length = 1 ∧
      specUniqueNonEmpty [some " "] = 0 := by
  refine ⟨by decide, by decide, by decide⟩

/-- C4 amended: only missing entries (`NaN`) are dropped before
deduplication; when every entry of the input is missing, the run performs
zero lookups and yields an empty ResultSet.  Present entries that are
empty or whitespace-only are kept: they strip to the empty string, which
is deduplicated and looked up like any other identifier. -/
theorem C4_only_missing_dropped (api_key : String)
    (http : String → HttpResult) (cells : List (Option String))
    (h : ∀ c ∈ cells, c = none) :
    gstins_of cells = [] ∧
      runBatch api_key http (gstins_of cells) = [] ∧
      gstins_of [some "", some " "] = [""] := by
  have hf : cells.filterMap id = [] := List.filterMap_eq_nil_iff.2 h
  have hg : gstins_of cells = [] := by rw [gstins_of, hf]; rfl
  exact ⟨hg, by rw [hg]; rfl, by decide⟩

theorem C4_only_missing_dropped_witness :
    (∀ c ∈ ([none, none] : List (Option String)), c = none) ∧
      gstins_of [none, none] = [] ∧
      runBatch "key" (fun _ => .exn "timeout") (gstins_of [none, none]) = [] ∧
      gstins_of [some "", some " "] = [""] := by
  refine ⟨by decide, ?_⟩
  have := C4_only_missing_dropped "key" (fun _ => .exn "timeout")
    [none, none] (by decide)
  exact this

/-! Helper lemmas for the column-width claim. -/

theorem falsy_pyStr_len_le {v : Json} (h : truthy v = false) :
    (pyStr v).length ≤ 5 := by
  cases v with
  | null => decide
  | bool b =>
    cases b
    · decide
    · exact Bool.noConfusion h
  | num n =>
    have hn : n = 0 := by simpa [truthy] using h
    subst hn; decide
  | str s =>
    have hs : s = "" := by simpa [truthy] using h
    subst hs; decide
  | arr l =>
    have hl : l = [] := by simpa [truthy] using h
    subst hl; decide
  | obj kvs =>
    have hl : kvs = [] := by simpa [truthy] using h
    subst hl; decide

theorem recordKeys_len_ge {c : String} (h : c ∈ recordKeys) :
    5 ≤ c.length := by
  simp only [recordKeys, List.mem_cons, List.not_mem_nil, or_false] at h
  rcases h with rfl | rfl | rfl | rfl | rfl | rfl | rfl | rfl | rfl | rfl |
    rfl | rfl | rfl <;> decide

theorem errKeys_len_ge {c : String} (h : c ∈ errKeys) : 5 ≤ c.length := by
  simp only [errKeys, List.mem_cons, List.not_mem_nil, or_false] at h
  rcases h with rfl | rfl <;> decide

theorem lookupJson_some_key_mem {c : String} {v : Json} :
    ∀ r : List (String × Json), lookupJson r c = some v →
      c ∈ r.map Prod.fst := by
  intro r
  induction r with
  | nil => intro h; cases h
  | cons kv rest ih =>
    intro h
    rcases kv with ⟨k, w⟩
    by_cases hk : k = c
    · subst hk; exact List.mem_cons_self _ _
    · simp only [lookupJson, if_neg hk] at h
      exact List.mem_cons_of_mem _ (ih h)

/-- Any falsy value sitting in a field of a record produced by the lookup
client stringifies to at most the length of its own column key, so the
source's miscounting of falsy cells as length 0 never changes a column
maximum. -/
theorem record_falsy_cell_bound (api_key gstin : String) (r : HttpResult)
    {c : String} {v : Json}
    (hl : lookupJson (get_gstin_details api_key gstin r) c = some v)
    (hv : truthy v = false) : (pyStr v).length ≤ c.length := by
  have hmem := lookupJson_some_key_mem _ hl
  have h5 : 5 ≤ c.length := by
    rcases (get_gstin_details_shape api_key gstin r).2 with hk | hk <;>
      rw [hk] at hmem
    · exact recordKeys_len_ge hmem
    · exact errKeys_len_ge hmem
  exact le_trans (falsy_pyStr_len_le hv) h5

theorem le_foldl_max :
    ∀ (l : List Nat) (b : Nat),
      b ≤ l.foldl max b ∧ ∀ a ∈ l, a ≤ l.foldl max b := by
  intro l
  induction l with
  | nil => intro b; exact ⟨le_refl b, by simp⟩
  | cons x xs ih =>
    intro b
    have hb : max b x ≤ xs.foldl max (max b x) := (ih (max b x)).1
    refine ⟨le_trans (le_max_left b x) hb, ?_⟩
    intro a ha
    rcases List.mem_cons.1 ha with rfl | ha
    · exact le_trans (le_max_right b a) hb
    · exact (ih (max b x)).2 a ha

theorem foldl_max_le {c : Nat} :
    ∀ (l : List Nat) (b : Nat), b ≤ c → (∀ a ∈ l, a ≤ c) →
      l.foldl max b ≤ c := by
  intro l
  induction l with
  | nil => intro b hb _; exact hb
  | cons x xs ih =>
    intro b hb h
    exact ih (max b x) (max_le hb (h x (List.mem_cons_self _ _)))
      (fun a ha => h a (List.mem_cons_of_mem _ ha))

theorem pyLenCell_le_specLenCell (x : Option Json) :
    pyLenCell x ≤ specLenCell x := by
  cases x with
  | none => exact le_refl 0
  | some v =>
    by_cases hv : truthy v = true
    · simp [pyLenCell, specLenCell, hv]
    · simp [pyLenCell, specLenCell, eq_false_of_ne_true hv]

theorem specLenCell_header (c : String) :
    specLenCell (some (Json.str c)) = pyLenCell (some (Json.str c)) := by
  by_cases hc : c = ""
  · subst hc; decide
  · have ht : truthy (Json.str c) = true := by simpa [truthy] using hc
    simp [specLenCell, pyLenCell, ht]

/-! Claim C9: per-column widths in the rendered spreadsheet. -/

/-- C9: for every column of the table rendered from a batch run, the
assigned width equals the length of the longest stringified cell value in
that column, header cell included, plus the fixed margin of 2, computed
per column independently.  (The source counts a falsy cell value as
length 0, but every falsy JSON value stringifies to at most 5 characters
while every column key of a lookup record is at least 5 characters long,
so the two maxima always agree.) -/
theorem C9_column_width (api_key : String) (http : String → HttpResult)
    (gs : List String) (c : String) :
    codeWidth (runBatch api_key http gs) c =
      specWidth (runBatch api_key http gs) c := by
  rw [codeWidth, specWidth]
  congr 1
  apply Nat.le_antisymm
  · -- every length the source counts is at most the spec maximum
    refine foldl_max_le _ 0 (Nat.zero_le _) ?_
    intro a ha
    rcases List.mem_map.1 ha with ⟨x, hx, rfl⟩
    exact le_trans (pyLenCell_le_specLenCell x)
      ((le_foldl_max _ 0).2 _ (List.mem_map_of_mem specLenCell hx))
  · -- every stringified length is at most the source maximum
    refine foldl_max_le _ 0 (Nat.zero_le _) ?_
    intro a ha
    rcases List.mem_map.1 ha with ⟨x, hx, rfl⟩
    rcases List.mem_cons.1 hx with rfl | hx
    · rw [specLenCell_header]
      exact (le_foldl_max _ 0).2 _
        (List.mem_map_of_mem pyLenCell (List.mem_cons_self _ _))
    · rcases List.mem_map.1 hx with ⟨r, hr, rfl⟩
      rcases List.mem_map.1 hr with ⟨g, _, rfl⟩
      rcases hcell : lookupJson (get_gstin_details api_key g (http g)) c with
        _ | v
      · simp [specLenCell]
      · by_cases hv : truthy v = true
        · have : specLenCell (some v) = pyLenCell (some v) := by
            simp [specLenCell, pyLenCell, hv]
          rw [this]
          refine (le_foldl_max _ 0).2 _ (List.mem_map_of_mem pyLenCell ?_)
          refine List.mem_cons_of_mem _ (List.mem_map.2 ⟨_, ?_, hcell⟩)
          exact List.mem_map.2 ⟨g, ‹g ∈ gs›, rfl⟩
        · have hb := record_falsy_cell_bound api_key g (http g) hcell
            (eq_false_of_ne_true hv)
          have hhead : specLenCell (some v) ≤ pyLenCell (some (Json.str c)) := by
            rw [← specLenCell_header]
            simpa [specLenCell] using hb
          exact le_trans hhead ((le_foldl_max _ 0).2 _
            (List.mem_map_of_mem pyLenCell (List.mem_cons_self _ _)))

/-! Helper lemmas for the progress computation: characterizations of the
binary logarithm, of round-to-nearest ties-to-even, and of the binade
bookkeeping in the two-step float computation `fl(fl(k/n) * 100)`. -/

theorem lg2_spec :
    ∀ (fuel n : Nat), 1 ≤ n → n ≤ fuel →
      2 ^ lg2 fuel n ≤ n ∧ n < 2 ^ (lg2 fuel n + 1) := by
  intro fuel
  induction fuel with
  | zero => intro n h1 h0; omega
  | succ fuel ih =>
    intro n h1 hle
    by_cases h2 : n < 2
    · have hn1 : n = 1 := by omega
      subst hn1
      simp [lg2]
    · have hd : n / 2 < n := Nat.div_lt_self (by omega) (by omega)
      have hrec := ih (n / 2) (by omega) (by omega)
      have hpow : lg2 (fuel + 1) n = lg2 fuel (n / 2) + 1 := by
        simp [lg2, h2]
      rw [hpow]
      rcases hrec with ⟨ha, hb⟩
      have hdm := Nat.div_add_mod n 2
      have hmod : n % 2 < 2 := Nat.mod_lt _ (by omega)
      constructor
      · have : 2 ^ (lg2 fuel (n / 2) + 1) = 2 * 2 ^ lg2 fuel (n / 2) := by
          ring
        rw [this]
        omega
      · have : 2 ^ (lg2 fuel (n / 2) + 1 + 1) =
            2 * 2 ^ (lg2 fuel (n / 2) + 1) := by ring
        rw [this]
        omega

theorem nlog2_spec (n : Nat) (h : 1 ≤ n) :
    2 ^ nlog2 n ≤ n ∧ n < 2 ^ (nlog2 n + 1) :=
  lg2_spec n n h (le_refl n)

theorem nlog2_ge {a n : Nat} (hn : 1 ≤ n) (h : 2 ^ a ≤ n) : a ≤ nlog2 n := by
  have hs := (nlog2_spec n hn).2
  have hlt : 2 ^ a < 2 ^ (nlog2 n + 1) := lt_of_le_of_lt h hs
  have := (Nat.pow_lt_pow_iff_right (by norm_num : 1 < 2)).1 hlt
  omega

theorem nlog2_le {b n : Nat} (hn : 1 ≤ n) (h : n < 2 ^ (b + 1)) :
    nlog2 n ≤ b := by
  have hs := (nlog2_spec n hn).1
  have hlt : 2 ^ nlog2 n < 2 ^ (b + 1) := lt_of_le_of_lt hs h
  have := (Nat.pow_lt_pow_iff_right (by norm_num : 1 < 2)).1 hlt
  omega

theorem rheNat_ge_div (a b : Nat) : a / b ≤ rheNat a b := by
  simp only [rheNat]
  repeat' split
  all_goals omega

theorem rheNat_le_div_succ (a b : Nat) : rheNat a b ≤ a / b + 1 := by
  simp only [rheNat]
  repeat' split
  all_goals omega

theorem rheNat_lower {a b L : Nat} (hb : 0 < b) (h : L * b ≤ a) :
    L ≤ rheNat a b :=
  le_trans ((Nat.le_div_iff_mul_le hb).2 h) (rheNat_ge_div a b)

theorem rheNat_upper {a b U : Nat} (hb : 0 < b) (h : a < U * b) :
    rheNat a b ≤ U := by
  have hf : a / b < U := (Nat.div_lt_iff_lt_mul hb).2 h
  have := rheNat_le_div_succ a b
  omega

theorem rheNat_mul_exact {b : Nat} (x : Nat) (hb : 0 < b) :
    rheNat (b * x) b = x := by
  simp only [rheNat, Nat.mul_mod_right, Nat.mul_div_cancel_left x hb]
  repeat' split
  all_goals omega

theorem natDiv_mono_cross {a1 b1 a2 b2 : Nat} (hb1 : 0 < b1) (hb2 : 0 < b2)
    (h : a1 * b2 ≤ a2 * b1) : a1 / b1 ≤ a2 / b2 := by
  refine (Nat.le_div_iff_mul_le hb2).2 ?_
  have h1 : a1 / b1 * b1 ≤ a1 := Nat.div_mul_le_self a1 b1
  have h2 : a1 / b1 * b2 * b1 ≤ a2 * b1 := by
    calc a1 / b1 * b2 * b1 = a1 / b1 * b1 * b2 := by ring
      _ ≤ a1 * b2 := Nat.mul_le_mul_right b2 h1
      _ ≤ a2 * b1 := h
  exact Nat.le_of_mul_le_mul_right h2 hb1

theorem rheNat_zone_lt {a b : Nat} (h : 2 * (a % b) < b) :
    rheNat a b = a / b := by
  simp only [rheNat]
  repeat' split
  all_goals omega

theorem rheNat_zone_gt {a b : Nat} (h : b < 2 * (a % b)) :
    rheNat a b = a / b + 1 := by
  simp only [rheNat]
  repeat' split
  all_goals omega

theorem rheNat_zone_tie_even {a b : Nat} (h : 2 * (a % b) = b)
    (hp : (a / b) % 2 = 0) : rheNat a b = a / b := by
  simp only [rheNat]
  repeat' split
  all_goals omega

theorem rheNat_zone_tie_odd {a b : Nat} (h : 2 * (a % b) = b)
    (hp : (a / b) % 2 = 1) : rheNat a b = a / b + 1 := by
  simp only [rheNat]
  repeat' split
  all_goals omega

/-- Round-to-nearest ties-to-even is weakly monotone as a function of the
rational value `a / b`, stated here with cross-multiplied comparisons so
everything stays in ℕ. -/
theorem rheNat_mono_cross {a1 b1 a2 b2 : Nat} (hb1 : 0 < b1) (hb2 : 0 < b2)
    (h : a1 * b2 ≤ a2 * b1) : rheNat a1 b1 ≤ rheNat a2 b2 := by
  have hf : a1 / b1 ≤ a2 / b2 := natDiv_mono_cross hb1 hb2 h
  by_cases hlt : a1 / b1 < a2 / b2
  · have hu := rheNat_le_div_succ a1 b1
    have hl := rheNat_ge_div a2 b2
    omega
  · have hfe : a1 / b1 = a2 / b2 := by omega
    have e1 : b1 * (a1 / b1) + a1 % b1 = a1 := Nat.div_add_mod a1 b1
    have e2 : b2 * (a2 / b2) + a2 % b2 = a2 := Nat.div_add_mod a2 b2
    have key : (a1 % b1) * b2 ≤ (a2 % b2) * b1 := by
      have expand : b1 * (a1 / b1) * b2 + (a1 % b1) * b2 ≤
          b1 * (a1 / b1) * b2 + (a2 % b2) * b1 := by
        calc b1 * (a1 / b1) * b2 + (a1 % b1) * b2
            = (b1 * (a1 / b1) + a1 % b1) * b2 := by ring
          _ = a1 * b2 := by rw [e1]
          _ ≤ a2 * b1 := h
          _ = (b2 * (a2 / b2) + a2 % b2) * b1 := by rw [e2]
          _ = b1 * (a1 / b1) * b2 + (a2 % b2) * b1 := by rw [← hfe]; ring
      exact Nat.le_of_add_le_add_left expand
    rcases lt_trichotomy (2 * (a1 % b1)) b1 with hz1 | hz1 | hz1
    · have hA := rheNat_zone_lt hz1
      have hB := rheNat_ge_div a2 b2
      omega
    · -- the left value sits exactly on a tie
      have hge2 : b2 ≤ 2 * (a2 % b2) := by
        have h3 : b2 * b1 ≤ (2 * (a2 % b2)) * b1 := by
          calc b2 * b1 = (2 * (a1 % b1)) * b2 := by rw [hz1]; ring
            _ = 2 * ((a1 % b1) * b2) := by ring
            _ ≤ 2 * ((a2 % b2) * b1) := Nat.mul_le_mul_left 2 key
            _ = (2 * (a2 % b2)) * b1 := by ring
        exact Nat.le_of_mul_le_mul_right h3 hb1
      rcases eq_or_lt_of_le hge2 with hz2 | hz2
      · rcases Nat.mod_two_eq_zero_or_one (a1 / b1) with hp | hp
        · have hA := rheNat_zone_tie_even hz1 hp
          have hB := rheNat_ge_div a2 b2
          omega
        · have hA := rheNat_zone_tie_odd hz1 hp
          have hB := rheNat_zone_tie_odd hz2.symm (by omega)
          omega
      · have hA := rheNat_le_div_succ a1 b1
        have hB := rheNat_zone_gt hz2
        omega
    · -- the left fraction is strictly above one half
      have hgt2 : b2 < 2 * (a2 % b2) := by
        have h3 : b2 * b1 < (2 * (a2 % b2)) * b1 := by
          calc b2 * b1 = b1 * b2 := by ring
            _ < (2 * (a1 % b1)) * b2 :=
              Nat.mul_lt_mul_of_lt_of_le hz1 (le_refl b2) hb2
            _ = 2 * ((a1 % b1) * b2) := by ring
            _ ≤ 2 * ((a2 % b2) * b1) := Nat.mul_le_mul_left 2 key
            _ = (2 * (a2 % b2)) * b1 := by ring
        exact Nat.lt_of_mul_lt_mul_right h3
      have hA := rheNat_zone_gt hz1
      have hB := rheNat_zone_gt hgt2
      omega

/-- The binade exponent of `k / n`: `n ≤ k * 2 ^ dExp k n < 2 * n`. -/
theorem dExp_spec {k n : Nat} (hk : 1 ≤ k) (hkn : k ≤ n) :
    n ≤ k * 2 ^ dExp k n ∧ k * 2 ^ dExp k n < 2 * n := by
  by_cases hnk : n ≤ k
  · have hke : k = n := le_antisymm hkn hnk
    subst hke
    simp [dExp]
    omega
  · have hkn2 : k < n := by omega
    have hd : dExp k n = nlog2 ((n - 1) / k) + 1 := by simp [dExp, hnk]
    have hj1 : 1 ≤ (n - 1) / k := by
      refine (Nat.le_div_iff_mul_le (by omega)).2 ?_
      omega
    rcases nlog2_spec ((n - 1) / k) hj1 with ⟨hja, hjb⟩
    have hdm := Nat.div_add_mod (n - 1) k
    have hmod : (n - 1) % k < k := Nat.mod_lt _ (by omega)
    rw [hd]
    set t := nlog2 ((n - 1) / k) with ht
    set j := (n - 1) / k with hjdef
    have hpow : (2 : Nat) ^ (t + 1) = 2 ^ t * 2 := pow_succ 2 t
    constructor
    · have ha : n - 1 < k * (j + 1) := by
        have : k * (j + 1) = k * j + k := by ring
        omega
      have hb : k * (j + 1) ≤ k * 2 ^ (t + 1) := by
        refine Nat.mul_le_mul_left k ?_
        omega
      omega
    · have hc : k * 2 ^ (t + 1) = 2 * (k * 2 ^ t) := by ring
      have hdd : k * 2 ^ t ≤ k * j := Nat.mul_le_mul_left k hja
      have he : k * j ≤ n - 1 := by omega
      omega

/-- The significand of the rounded quotient lies in `[2^52, 2^53]`. -/
theorem mDiv_bounds {k n : Nat} (hk : 1 ≤ k) (hkn : k ≤ n) :
    2 ^ 52 ≤ mDiv k n ∧ mDiv k n ≤ 2 ^ 53 := by
  have hn : 0 < n := lt_of_lt_of_le hk hkn
  rcases dExp_spec hk hkn with ⟨h1, h2⟩
  constructor
  · refine rheNat_lower hn ?_
    calc (2 : Nat) ^ 52 * n ≤ 2 ^ 52 * (k * 2 ^ dExp k n) :=
          Nat.mul_le_mul_left _ h1
      _ = k * 2 ^ s52 k n := by rw [s52, pow_add]; ring
  · refine rheNat_upper hn ?_
    calc k * 2 ^ s52 k n = 2 ^ 52 * (k * 2 ^ dExp k n) := by
          rw [s52, pow_add]; ring
      _ < 2 ^ 52 * (2 * n) := by
          exact Nat.mul_lt_mul_of_le_of_lt (le_refl _) h2 (by positivity)
      _ = 2 ^ 53 * n := by ring

theorem tExp_spec {k n : Nat} (hk : 1 ≤ k) (hkn : k ≤ n) :
    2 ^ (tExp k n + 52) ≤ 100 * mDiv k n ∧
      100 * mDiv k n < 2 ^ (tExp k n + 53) ∧ tExp k n ≤ 7 := by
  rcases mDiv_bounds hk hkn with ⟨hm1, hm2⟩
  have hP1 : (2 : Nat) ^ 58 ≤ 100 * mDiv k n := by
    calc (2 : Nat) ^ 58 = 64 * 2 ^ 52 := by norm_num
      _ ≤ 100 * 2 ^ 52 := by norm_num
      _ ≤ 100 * mDiv k n := Nat.mul_le_mul_left 100 hm1
  have hP2 : 100 * mDiv k n < 2 ^ 60 := by
    calc 100 * mDiv k n ≤ 100 * 2 ^ 53 := Nat.mul_le_mul_left 100 hm2
      _ < 128 * 2 ^ 53 := by norm_num
      _ = 2 ^ 60 := by norm_num
  have hPpos : 1 ≤ 100 * mDiv k n := by
    have : (0 : Nat) < 2 ^ 58 := by positivity
    omega
  have hL1 : 58 ≤ nlog2 (100 * mDiv k n) := nlog2_ge hPpos hP1
  have hL2 : nlog2 (100 * mDiv k n) ≤ 59 :=
    nlog2_le hPpos (by norm_num at hP2 ⊢; exact hP2)
  rcases nlog2_spec (100 * mDiv k n) hPpos with ⟨hs1, hs2⟩
  have hte : tExp k n + 52 = nlog2 (100 * mDiv k n) := by
    rw [tExp]; omega
  refine ⟨by rw [hte]; exact hs1, ?_, by rw [tExp]; omega⟩
  have hsucc : tExp k n + 53 = nlog2 (100 * mDiv k n) + 1 := by omega
  rw [hsucc]; exact hs2

/-- Monotonicity of the rounded quotient, as the cross-multiplied
comparison of `mDiv k1 n / 2 ^ s52 k1 n ≤ mDiv k2 n / 2 ^ s52 k2 n`. -/
theorem mDiv_cross {k1 k2 n : Nat} (hk1 : 1 ≤ k1) (h12 : k1 ≤ k2)
    (h2n : k2 ≤ n) :
    mDiv k1 n * 2 ^ s52 k2 n ≤ mDiv k2 n * 2 ^ s52 k1 n := by
  have hk2 : 1 ≤ k2 := le_trans hk1 h12
  have hn : 0 < n := lt_of_lt_of_le hk2 h2n
  have h1n : k1 ≤ n := le_trans h12 h2n
  rcases dExp_spec hk1 h1n with ⟨ha1, hb1⟩
  rcases dExp_spec hk2 h2n with ⟨ha2, hb2⟩
  have hd : dExp k2 n ≤ dExp k1 n := by
    by_contra hcon
    push_neg at hcon
    have hstep : dExp k1 n + 1 ≤ dExp k2 n := hcon
    have c1 : 2 * n ≤ k1 * 2 ^ (dExp k1 n + 1) := by
      have : k1 * 2 ^ (dExp k1 n + 1) = (k1 * 2 ^ dExp k1 n) * 2 := by ring
      omega
    have c2 : k1 * 2 ^ (dExp k1 n + 1) ≤ k1 * 2 ^ dExp k2 n :=
      Nat.mul_le_mul_left k1 (Nat.pow_le_pow_right (by omega) hstep)
    have c3 : k1 * 2 ^ dExp k2 n ≤ k2 * 2 ^ dExp k2 n :=
      Nat.mul_le_mul_right _ h12
    omega
  by_cases hde : dExp k1 n = dExp k2 n
  · have hs : s52 k1 n = s52 k2 n := by rw [s52, s52, hde]
    rw [hs]
    refine Nat.mul_le_mul_right _ ?_
    refine rheNat_mono_cross hn hn ?_
    have hmm : k1 * 2 ^ s52 k1 n ≤ k2 * 2 ^ s52 k2 n := by
      rw [hs]
      exact Nat.mul_le_mul_right _ h12
    exact Nat.mul_le_mul_right n hmm
  · have hslt : s52 k2 n + 1 ≤ s52 k1 n := by
      rw [s52, s52]; omega
    rcases mDiv_bounds hk1 h1n with ⟨_, hup1⟩
    rcases mDiv_bounds hk2 h2n with ⟨hlo2, _⟩
    calc mDiv k1 n * 2 ^ s52 k2 n ≤ 2 ^ 53 * 2 ^ s52 k2 n :=
          Nat.mul_le_mul_right _ hup1
      _ = 2 ^ (53 + s52 k2 n) := by rw [pow_add]
      _ ≤ 2 ^ (52 + s52 k1 n) := Nat.pow_le_pow_right (by omega) (by omega)
      _ = 2 ^ 52 * 2 ^ s52 k1 n := by rw [pow_add]
      _ ≤ mDiv k2 n * 2 ^ s52 k1 n := Nat.mul_le_mul_right _ hlo2

/-- Monotonicity after the second rounding, again cross-multiplied:
the value `fl(fl(k/n) * 100)` is `mMul k n / 2 ^ (s52 k n - tExp k n)`. -/
theorem mMul_cross {k1 k2 n : Nat} (hk1 : 1 ≤ k1) (h12 : k1 ≤ k2)
    (h2n : k2 ≤ n) :
    mMul k1 n * 2 ^ (s52 k2 n - tExp k2 n) ≤
      mMul k2 n * 2 ^ (s52 k1 n - tExp k1 n) := by
  have hk2 : 1 ≤ k2 := le_trans hk1 h12
  have h1n : k1 ≤ n := le_trans h12 h2n
  rcases tExp_spec hk1 h1n with ⟨hA1, hB1, ht1⟩
  rcases tExp_spec hk2 h2n with ⟨hA2, hB2, ht2⟩
  have hts1 : tExp k1 n ≤ s52 k1 n := by rw [s52]; omega
  have hts2 : tExp k2 n ≤ s52 k2 n := by rw [s52]; omega
  have hPcross : (100 * mDiv k1 n) * 2 ^ s52 k2 n ≤
      (100 * mDiv k2 n) * 2 ^ s52 k1 n := by
    have hmul := Nat.mul_le_mul_left 100 (mDiv_cross hk1 h12 h2n)
    calc (100 * mDiv k1 n) * 2 ^ s52 k2 n
        = 100 * (mDiv k1 n * 2 ^ s52 k2 n) := by ring
      _ ≤ 100 * (mDiv k2 n * 2 ^ s52 k1 n) := hmul
      _ = (100 * mDiv k2 n) * 2 ^ s52 k1 n := by ring
  have hbin : tExp k1 n + s52 k2 n ≤ tExp k2 n + s52 k1 n := by
    by_contra hcon
    push_neg at hcon
    have hstep : tExp k2 n + s52 k1 n + 1 ≤ tExp k1 n + s52 k2 n := hcon
    have c1 : (100 * mDiv k2 n) * 2 ^ s52 k1 n <
        2 ^ (tExp k2 n + 53) * 2 ^ s52 k1 n :=
      Nat.mul_lt_mul_of_lt_of_le hB2 (le_refl _) (by positivity)
    have c2 : (2 : Nat) ^ (tExp k2 n + 53) * 2 ^ s52 k1 n ≤
        2 ^ (tExp k1 n + 52) * 2 ^ s52 k2 n := by
      rw [← pow_add, ← pow_add]
      exact Nat.pow_le_pow_right (by omega) (by omega)
    have c3 : (2 : Nat) ^ (tExp k1 n + 52) * 2 ^ s52 k2 n ≤
        (100 * mDiv k1 n) * 2 ^ s52 k2 n :=
      Nat.mul_le_mul_right _ hA1
    omega
  by_cases heq : tExp k1 n + s52 k2 n = tExp k2 n + s52 k1 n
  · have hsub : s52 k2 n - tExp k2 n = s52 k1 n - tExp k1 n := by omega
    rw [hsub]
    refine Nat.mul_le_mul_right _ ?_
    refine rheNat_mono_cross (by positivity) (by positivity) ?_
    have hc : ((100 * mDiv k1 n) * 2 ^ tExp k2 n) * 2 ^ s52 k1 n ≤
        ((100 * mDiv k2 n) * 2 ^ tExp k1 n) * 2 ^ s52 k1 n := by
      calc ((100 * mDiv k1 n) * 2 ^ tExp k2 n) * 2 ^ s52 k1 n
          = (100 * mDiv k1 n) * 2 ^ (tExp k2 n + s52 k1 n) := by
            rw [pow_add]; ring
        _ = (100 * mDiv k1 n) * 2 ^ (tExp k1 n + s52 k2 n) := by rw [heq]
        _ = ((100 * mDiv k1 n) * 2 ^ s52 k2 n) * 2 ^ tExp k1 n := by
            rw [pow_add]; ring
        _ ≤ ((100 * mDiv k2 n) * 2 ^ s52 k1 n) * 2 ^ tExp k1 n :=
            Nat.mul_le_mul_right _ hPcross
        _ = ((100 * mDiv k2 n) * 2 ^ tExp k1 n) * 2 ^ s52 k1 n := by ring
    exact Nat.le_of_mul_le_mul_right hc (by positivity)
  · have hstep : tExp k1 n + s52 k2 n + 1 ≤ tExp k2 n + s52 k1 n := by omega
    have hm1up : mMul k1 n ≤ 2 ^ 53 := by
      refine rheNat_upper (by positivity) ?_
      calc 100 * mDiv k1 n < 2 ^ (tExp k1 n + 53) := hB1
        _ = 2 ^ 53 * 2 ^ tExp k1 n := by rw [pow_add]; ring
    have hm2lo : (2 : Nat) ^ 52 ≤ mMul k2 n := by
      refine rheNat_lower (by positivity) ?_
      calc (2 : Nat) ^ 52 * 2 ^ tExp k2 n = 2 ^ (tExp k2 n + 52) := by
            rw [pow_add]; ring
        _ ≤ 100 * mDiv k2 n := hA2
    calc mMul k1 n * 2 ^ (s52 k2 n - tExp k2 n)
        ≤ 2 ^ 53 * 2 ^ (s52 k2 n - tExp k2 n) :=
          Nat.mul_le_mul_right _ hm1up
      _ = 2 ^ (53 + (s52 k2 n - tExp k2 n)) := by rw [pow_add]
      _ ≤ 2 ^ (52 + (s52 k1 n - tExp k1 n)) :=
          Nat.pow_le_pow_right (by omega) (by omega)
      _ = 2 ^ 52 * 2 ^ (s52 k1 n - tExp k1 n) := by rw [pow_add]
      _ ≤ mMul k2 n * 2 ^ (s52 k1 n - tExp k1 n) :=
          Nat.mul_le_mul_right _ hm2lo

theorem pyProgress_mono {n k1 k2 : Nat} (hk1 : 1 ≤ k1) (h12 : k1 ≤ k2)
    (h2n : k2 ≤ n) : pyProgress k1 n ≤ pyProgress k2 n := by
  rw [pyProgress, pyProgress]
  exact natDiv_mono_cross (by positivity) (by positivity)
    (mMul_cross hk1 h12 h2n)

theorem pyProgress_last {n : Nat} (hn : 1 ≤ n) : pyProgress n n = 100 := by
  have h1 : dExp n n = 0 := by simp [dExp]
  have h2 : mDiv n n = 2 ^ 52 := by
    rw [mDiv, s52, h1]
    have hpow : n * 2 ^ (52 + 0) = n * 2 ^ 52 := by norm_num
    rw [hpow]
    exact rheNat_mul_exact (2 ^ 52) (by omega)
  simp only [pyProgress, mMul, tExp, s52, h1, h2]
  decide

theorem progressSeq_emit {n k : Nat} (hk : 1 ≤ k) (hkn : k ≤ n) :
    (progressSeq n)[k - 1]? = some (pyProgress k n) := by
  have hk2 : k - 1 < n := by omega
  have hplus : k - 1 + 1 = k := by omega
  simp [progressSeq, List.getElem?_map, List.getElem?_range, hk2, hplus]

/-! Claim C3: the progress computation. -/

/-- C3 counterexample: the progress value emitted by
`int(idx / len(gstins) * 100)` does not always equal the exact
`floor(k / n * 100)` — at `k = 29` of `n = 100`, the binary64 computation
yields `0.29 * 100 = 28.999999999999996`, which truncates to 28, while the
exact floor is 29. -/
theorem C3_floor_formula_counterexample :
    pyProgress 29 100 = 28 ∧ specProgress 29 100 = 29 ∧
      ¬ (pyProgress 29 100 = specProgress 29 100) :=
  ⟨by decide, by decide, by decide⟩

/-- C3 amended: the progress value emitted after the `k`-th of `n` unique
identifiers is the truncation of the double-precision evaluation of
`k / n * 100` (round-to-nearest, ties-to-even in both operations), which
can fall one below the exact `floor(k / n * 100)`; the sequence of emitted
progress values over a run is monotonically increasing (non-decreasing),
and the final value, after item `n` of `n`, is exactly 100. -/
theorem C3_progress_float_monotone :
    (∀ n k1 k2 : Nat, 1 ≤ k1 → k1 ≤ k2 → k2 ≤ n →
        pyProgress k1 n ≤ pyProgress k2 n) ∧
      (∀ n : Nat, 1 ≤ n → pyProgress n n = 100) ∧
      (∀ n k : Nat, 1 ≤ k → k ≤ n →
        (progressSeq n)[k - 1]? = some (pyProgress k n)) :=
  ⟨fun _ _ _ h1 h2 h3 => pyProgress_mono h1 h2 h3,
   fun _ hn => pyProgress_last hn,
   fun _ _ hk hkn => progressSeq_emit hk hkn⟩

theorem C3_progress_float_monotone_witness :
    ((1 : Nat) ≤ 29 ∧ (29 : Nat) ≤ 30 ∧ (30 : Nat) ≤ 100 ∧
        pyProgress 29 100 ≤ pyProgress 30 100) ∧
      ((1 : Nat) ≤ 3 ∧ pyProgress 3 3 = 100) ∧
      ((1 : Nat) ≤ 2 ∧ (2 : Nat) ≤ 3 ∧
        (progressSeq 3)[2 - 1]? = some (pyProgress 2 3)) :=
  ⟨⟨by decide, by decide, by decide,
    C3_progress_float_monotone.1 100 29 30 (by decide) (by decide)
      (by decide)⟩,
   ⟨by decide, C3_progress_float_monotone.2.1 3 (by decide)⟩,
   ⟨by decide, by decide,
    C3_progress_float_monotone.2.2 3 2 (by decide) (by decide)⟩⟩

end GSTcheck
